import Mathlib

/-!
# Scoped Default Registry — verification development

The repository slice at hand consists of tutorial notebooks that exercise
nengo's hierarchical configuration/defaults system
(`docs/examples/usage/config.ipynb`).  The implementation of that system
lives in the external nengo framework and is not part of this slice, so
the registry below is modelled from the specification of the
"Scoped Default Registry" component (spec sections 3, 4.1 and 7):
categories with declared parameters, scopes holding category-level and
instance-level override tables, a stack of currently active scopes, and
a `resolve` operation that walks the stack from innermost to outermost.
-/

set_option autoImplicit false

namespace ScopedDefaults

/-- Values stored for parameters.  The notebook only manipulates scalar
parameter values (radii, memory locations); integers suffice for the model. -/
abbrev Value := Int

/-- A category of configurable objects (e.g. `Ensemble`), by identifier. -/
abbrev Cat := Nat

/-- A parameter name (e.g. `radius`), by identifier. -/
abbrev Name := Nat

/-- A scope identifier: each `config` object is a scope. -/
abbrev ScopeId := Nat

/-- An identifier for a configured object instance. -/
abbrev Inst := Nat

/-- Modelled from the spec: the error kinds of section 7.  The scope-stack
corruption and invalid-value errors are the ones the claims exercise;
the others complete the spec's list. -/
inductive RegError where
  | invalidValue
  | duplicateParameter
  | missingRequiredParameter
  | scopeStackCorruption
  | undeclaredParameter
deriving DecidableEq, Repr

/-- Modelled from the spec: a parameter declaration `(name, default value,
validity predicate, optional-ness)`.  A required parameter may lack a
static default, hence `Option Value`. -/
structure ParamDecl where
  default : Option Value
  validator : Value → Bool
  required : Bool

/-- First-match lookup in an association list. -/
def alookup {α β : Type} [DecidableEq α] : List (α × β) → α → Option β
  | [], _ => none
  | (k, v) :: rest, a => if k = a then some v else alookup rest a

/-- Overwrite the binding of a key, or append it if absent. -/
def aupdate {α β : Type} [DecidableEq α] : List (α × β) → α → β → List (α × β)
  | [], a, b => [(a, b)]
  | (k, v) :: rest, a, b =>
    if k = a then (a, b) :: rest else (k, v) :: aupdate rest a b

/-- Remove every binding of a key. -/
def aremove {α β : Type} [DecidableEq α] : List (α × β) → α → List (α × β)
  | [], _ => []
  | (k, v) :: rest, a =>
    if k = a then aremove rest a else (k, v) :: aremove rest a

/-- Modelled from the spec: a scope's per-category override table, holding
category-level overrides `(category, name) ↦ value` and instance-level
overrides `(instance, name) ↦ value`. -/
structure ScopeTable where
  catOv : List ((Cat × Name) × Value)
  instOv : List ((Inst × Name) × Value)
deriving DecidableEq

def ScopeTable.empty : ScopeTable := ⟨[], []⟩

/-- Modelled from the spec: the registry state.  `decls` holds the static
parameter declarations per category; `tables` the override tables of every
scope ever populated (a scope's contents exist independently of whether the
scope is active); `stack` the currently active scopes as
`(cursor, scope id)` pairs, head innermost (most recently entered);
`nextCursor` generates fresh cursors for `enterScope`. -/
structure RegistryState where
  decls : List ((Cat × Name) × ParamDecl)
  tables : List (ScopeId × ScopeTable)
  stack : List (Nat × ScopeId)
  nextCursor : Nat

/-- The override table of a scope (empty if never populated). -/
def getTable (st : RegistryState) (sid : ScopeId) : ScopeTable :=
  (alookup st.tables sid).getD ScopeTable.empty

/-- Modelled from the spec: `declare_parameter` registers a new parameter on
a category, failing with `DuplicateParameterError` if already declared. -/
def declareParameter (st : RegistryState) (cat : Cat) (name : Name)
    (decl : ParamDecl) : Except RegError RegistryState :=
  match alookup st.decls (cat, name) with
  | some _ => .error .duplicateParameter
  | none => .ok { st with decls := aupdate st.decls (cat, name) decl }

/-- Modelled from the spec: `enter_scope` pushes the scope onto the active
stack and returns a fresh scope-cursor whose release pops exactly that
entry. -/
def enterScope (st : RegistryState) (sid : ScopeId) : Nat × RegistryState :=
  (st.nextCursor,
   { st with
      stack := (st.nextCursor, sid) :: st.stack
      nextCursor := st.nextCursor + 1 })

/-- Modelled from the spec: `exit_scope` pops the top scope; it fails with
`ScopeStackCorruptionError` if the cursor does not refer to the
top-of-stack entry (unmatched or out-of-order exit). -/
def exitScope (st : RegistryState) (cursor : Nat) :
    Except RegError RegistryState :=
  match st.stack with
  | [] => .error .scopeStackCorruption
  | (c, _) :: rest =>
    if c = cursor then .ok { st with stack := rest }
    else .error .scopeStackCorruption

/-- Modelled from the spec: `set_category_default` validates the value
against the parameter's validator and stores it in the scope's
category-level override table; a rejected value raises `InvalidValueError`
and the mutation does not take effect (all-or-nothing). -/
def setCategoryDefault (st : RegistryState) (sid : ScopeId) (cat : Cat)
    (name : Name) (value : Value) : Except RegError RegistryState :=
  match alookup st.decls (cat, name) with
  | none => .error .undeclaredParameter
  | some decl =>
    if decl.validator value then
      .ok { st with
              tables := aupdate st.tables sid
                { getTable st sid with
                    catOv := aupdate (getTable st sid).catOv (cat, name) value } }
    else .error .invalidValue

/-- Modelled from the spec: `unset_category_default` removes the override;
subsequent resolution falls through to enclosing scopes or the static
default.  Per the spec's documented implementation choice, unsetting a
never-set override is a silent no-op. -/
def unsetCategoryDefault (st : RegistryState) (sid : ScopeId) (cat : Cat)
    (name : Name) : RegistryState :=
  { st with
      tables := aupdate st.tables sid
        { getTable st sid with
            catOv := aremove (getTable st sid).catOv (cat, name) } }

/-- Modelled from the spec: `set_instance_override` stores an override
specific to one object instance within one scope, validated like any
other value. -/
def setInstanceOverride (st : RegistryState) (sid : ScopeId) (cat : Cat)
    (inst : Inst) (name : Name) (value : Value) :
    Except RegError RegistryState :=
  match alookup st.decls (cat, name) with
  | none => .error .undeclaredParameter
  | some decl =>
    if decl.validator value then
      .ok { st with
              tables := aupdate st.tables sid
                { getTable st sid with
                    instOv := aupdate (getTable st sid).instOv (inst, name) value } }
    else .error .invalidValue

/-- Walk a list of active `(cursor, scope)` entries innermost-first and
return the first category-level override found for `(cat, name)`. -/
def findOverride (st : RegistryState) (cat : Cat) (name : Name) :
    List (Nat × ScopeId) → Option Value
  | [] => none
  | p :: rest =>
    match alookup (getTable st p.2).catOv (cat, name) with
    | some v => some v
    | none => findOverride st cat name rest

/-- Modelled from the spec: `resolve (category, name, explicit_value)`.
An explicit value is validated and returned immediately; otherwise the
active scope stack is walked from innermost to outermost and the first
category-level override wins; otherwise the static declared default is
returned; a required parameter with no value anywhere fails with
`MissingRequiredParameterError`. -/
def resolve (st : RegistryState) (cat : Cat) (name : Name)
    (explicit : Option Value) : Except RegError Value :=
  match alookup st.decls (cat, name) with
  | none => .error .undeclaredParameter
  | some decl =>
    match explicit with
    | some v => if decl.validator v then .ok v else .error .invalidValue
    | none =>
      match findOverride st cat name st.stack with
      | some v => .ok v
      | none =>
        match decl.default with
        | some d => .ok d
        | none => .error .missingRequiredParameter

/-- Modelled from the spec: a query that explicitly references one instance
within one scope (the notebook's `my_config[e2].memory_location`): the
instance-level override wins, falling back to the scope's category-level
override. -/
def instanceQuery (st : RegistryState) (sid : ScopeId) (cat : Cat)
    (inst : Inst) (name : Name) : Option Value :=
  match alookup (getTable st sid).instOv (inst, name) with
  | some v => some v
  | none => alookup (getTable st sid).catOv (cat, name)

/-- The category-level overrides a single scope holds for one category,
as `(name, value)` pairs. -/
def scopeCatDefaults (t : ScopeTable) (cat : Cat) : List (Name × Value) :=
  match t with
  | ⟨[], _⟩ => []
  | ⟨(k, v) :: rest, i⟩ =>
    if k.1 = cat then (k.2, v) :: scopeCatDefaults ⟨rest, i⟩ cat
    else scopeCatDefaults ⟨rest, i⟩ cat

/-- Walk the active stack innermost-first, concatenating each active
scope's overrides for the category. -/
def allDefaultsAux (st : RegistryState) (cat : Cat) :
    List (Nat × ScopeId) → List (Name × Value)
  | [] => []
  | p :: rest =>
    scopeCatDefaults (getTable st p.2) cat ++ allDefaultsAux st cat rest

/-- Modelled from the spec: `all_defaults` filtered to one category —
a snapshot of every override currently set in the currently active scope
stack, in precedence (innermost-first) order. -/
def allDefaults (st : RegistryState) (cat : Cat) : List (Name × Value) :=
  allDefaultsAux st cat st.stack

/-- Modelled from the spec: `describe` returns the static parameter
metadata, independent of any scope. -/
def describe (st : RegistryState) (cat : Cat) (name : Name) :
    Option ParamDecl :=
  alookup st.decls (cat, name)

/-- The names declared on a category, in declaration order. -/
def declaredNamesAux (cat : Cat) :
    List ((Cat × Name) × ParamDecl) → List Name
  | [] => []
  | (k, _) :: rest =>
    if k.1 = cat then k.2 :: declaredNamesAux cat rest
    else declaredNamesAux cat rest

/-- The names declared on a category in the registry. -/
def declaredNames (st : RegistryState) (cat : Cat) : List Name :=
  declaredNamesAux cat st.decls

/-- Modelled from the spec: a configured object — an instance of a category
whose parameters were all resolved once, at construction time, and stored
as attributes. -/
structure Instance where
  cat : Cat
  attrs : List (Name × Value)

/-- Resolve each of the given parameter names once, against the current
registry state, using the explicit construction argument when supplied. -/
def resolveAll (st : RegistryState) (cat : Cat)
    (explicit : List (Name × Value)) :
    List Name → Except RegError (List (Name × Value))
  | [] => .ok []
  | n :: rest =>
    match resolve st cat n (alookup explicit n) with
    | .error e => .error e
    | .ok v =>
      match resolveAll st cat explicit rest with
      | .error e => .error e
      | .ok vs => .ok ((n, v) :: vs)

/-- Modelled from the spec: the construction-time hook — each declared
parameter of the category is resolved exactly once, at construction time,
and the result stored as the instance's attribute. -/
def constructInstance (st : RegistryState) (cat : Cat)
    (explicit : List (Name × Value)) : Except RegError Instance :=
  match resolveAll st cat explicit (declaredNames st cat) with
  | .error e => .error e
  | .ok attrs => .ok ⟨cat, attrs⟩

/-- Modelled from the spec (section 7): the advisory warning emitted when
external code attaches an attribute to a configured object outside the
declared parameter mechanism. -/
inductive AttachWarning where
  | undeclaredAttribute (name : Name)
deriving DecidableEq, Repr

/-- Modelled from the spec: attaching an attribute to a configured object.
An attribute outside the declared parameters emits a warning — advisory
only, it does not block the mutation, which always takes effect. -/
def setAttr (st : RegistryState) (obj : Instance) (name : Name)
    (v : Value) : List AttachWarning × Instance :=
  (if name ∈ declaredNames st obj.cat then []
   else [.undeclaredAttribute name],
   { obj with attrs := aupdate obj.attrs name v })

/-! ## Association-list lemmas -/

theorem alookup_aupdate_self {α β : Type} [DecidableEq α]
    (l : List (α × β)) (k : α) (v : β) :
    alookup (aupdate l k v) k = some v := by
  induction l with
  | nil => simp [aupdate, alookup]
  | cons p rest ih =>
    obtain ⟨k', v'⟩ := p
    by_cases h : k' = k
    · simp [aupdate, h, alookup]
    · simp [aupdate, h, alookup, ih]

theorem alookup_aupdate_ne {α β : Type} [DecidableEq α]
    (l : List (α × β)) (k k' : α) (v : β) (h : k' ≠ k) :
    alookup (aupdate l k v) k' = alookup l k' := by
  have hk : k ≠ k' := fun hh => h hh.symm
  induction l with
  | nil => simp [aupdate, alookup, hk]
  | cons p rest ih =>
    obtain ⟨a, b⟩ := p
    by_cases ha : a = k
    · subst ha
      simp [aupdate, alookup, hk]
    · simp [aupdate, alookup, ha, ih]

theorem alookup_aremove_self {α β : Type} [DecidableEq α]
    (l : List (α × β)) (k : α) :
    alookup (aremove l k) k = none := by
  induction l with
  | nil => simp [aremove, alookup]
  | cons p rest ih =>
    obtain ⟨a, b⟩ := p
    by_cases ha : a = k
    · simp [aremove, ha, ih]
    · simp [aremove, alookup, ha, ih]

theorem aremove_aupdate {α β : Type} [DecidableEq α]
    (l : List (α × β)) (k : α) (v : β) :
    aremove (aupdate l k v) k = aremove l k := by
  induction l with
  | nil => simp [aupdate, aremove]
  | cons p rest ih =>
    obtain ⟨a, b⟩ := p
    by_cases ha : a = k
    · simp [aupdate, aremove, ha]
    · simp [aupdate, aremove, ha, ih]

theorem aremove_of_lookup_none {α β : Type} [DecidableEq α]
    (l : List (α × β)) (k : α) (h : alookup l k = none) :
    aremove l k = l := by
  induction l with
  | nil => simp [aremove]
  | cons p rest ih =>
    obtain ⟨a, b⟩ := p
    by_cases ha : a = k
    · simp [alookup, ha] at h
    · simp [alookup, ha] at h
      simp [aremove, ha, ih h]

theorem tget_aupdate_self (tb : List (ScopeId × ScopeTable)) (sid : ScopeId)
    (t : ScopeTable) :
    (alookup (aupdate tb sid t) sid).getD ScopeTable.empty = t := by
  rw [alookup_aupdate_self]
  rfl

theorem tget_aupdate_ne (tb : List (ScopeId × ScopeTable)) (sid s : ScopeId)
    (t : ScopeTable) (h : s ≠ sid) :
    (alookup (aupdate tb sid t) s).getD ScopeTable.empty
      = (alookup tb s).getD ScopeTable.empty := by
  rw [alookup_aupdate_ne _ _ _ _ h]

/-! ## Congruence of resolution in the scope tables -/

theorem findOverride_congr (st st' : RegistryState)
    (h : ∀ s, (getTable st' s).catOv = (getTable st s).catOv)
    (cat : Cat) (name : Name) :
    ∀ l, findOverride st' cat name l = findOverride st cat name l := by
  intro l
  induction l with
  | nil => rfl
  | cons p rest ih => simp [findOverride, h p.2, ih]

theorem resolve_congr (st st' : RegistryState)
    (hdecls : st'.decls = st.decls) (hstack : st'.stack = st.stack)
    (h : ∀ s, (getTable st' s).catOv = (getTable st s).catOv)
    (cat : Cat) (name : Name) (explicit : Option Value) :
    resolve st' cat name explicit = resolve st cat name explicit := by
  unfold resolve
  rw [hdecls, hstack, findOverride_congr st st' h]

/-- Resolution only reads the category-level override tables: replacing the
table store with one holding the same category-level overrides per scope
leaves every resolution result unchanged. -/
theorem resolve_tables_congr (st : RegistryState)
    (tables' : List (ScopeId × ScopeTable))
    (h : ∀ s, ((alookup tables' s).getD ScopeTable.empty).catOv
      = (getTable st s).catOv)
    (cat : Cat) (name : Name) (explicit : Option Value) :
    resolve { st with tables := tables' } cat name explicit
      = resolve st cat name explicit :=
  resolve_congr st { st with tables := tables' } rfl rfl h cat name explicit

/-! ## Lemmas on walking the active scope stack -/

theorem findOverride_none (st : RegistryState) (cat : Cat) (name : Name)
    (l : List (Nat × ScopeId))
    (h : ∀ p ∈ l, alookup (getTable st p.2).catOv (cat, name) = none) :
    findOverride st cat name l = none := by
  induction l with
  | nil => rfl
  | cons p rest ih =>
    have hp := h p (by simp)
    simp [findOverride, hp]
    exact ih fun q hq => h q (by simp [hq])

theorem findOverride_first (st : RegistryState) (cat : Cat) (name : Name)
    (pre : List (Nat × ScopeId)) (c : Nat) (sid : ScopeId)
    (post : List (Nat × ScopeId)) (v : Value)
    (hpre : ∀ p ∈ pre, alookup (getTable st p.2).catOv (cat, name) = none)
    (hsid : alookup (getTable st sid).catOv (cat, name) = some v) :
    findOverride st cat name (pre ++ (c, sid) :: post) = some v := by
  induction pre with
  | nil => simp [findOverride, hsid]
  | cons p rest ih =>
    have hp := hpre p (by simp)
    simp only [List.cons_append, findOverride, hp]
    exact ih fun q hq => hpre q (by simp [hq])

/-! ## Example states used to witness the claim theorems -/

/-- A positive-valued parameter (like `radius`) with static default `1`. -/
def exDecl : ParamDecl := ⟨some 1, fun v => decide (0 < v), false⟩

/-- Declarations with the single parameter `(0, 0)` (category 0, name 0). -/
def exDecls : List ((Cat × Name) × ParamDecl) := [((0, 0), exDecl)]

/-- A registry with one declared parameter and no active scope. -/
def exSt0 : RegistryState := ⟨exDecls, [], [], 0⟩

/-- A scope table overriding `(0, 0)` with `3`. -/
def exTable1 : ScopeTable := ⟨[((0, 0), 3)], []⟩

/-- A registry whose stack holds scope `2` (innermost, no overrides) above
scope `1` (overriding `(0, 0)` with `3`). -/
def exSt1 : RegistryState := ⟨exDecls, [(1, exTable1)], [(0, 2), (1, 1)], 2⟩

/-! ## Claim theorems -/

/-- C1: resolution precedence.  For every category, parameter and explicit
value passing the validator, `resolve` returns the explicit value
regardless of any active scope override; with the "use default" sentinel
(`none`), `resolve` walks the active scope stack from innermost to
outermost and returns the first category-level override for the pair,
falling through to the static declared default only when no active scope
overrides it. -/
theorem c1_resolution_precedence (st : RegistryState) (cat : Cat)
    (name : Name) (decl : ParamDecl)
    (hdecl : alookup st.decls (cat, name) = some decl) :
    (∀ v, decl.validator v = true → resolve st cat name (some v) = .ok v)
    ∧ (∀ pre c sid post v, st.stack = pre ++ (c, sid) :: post →
        (∀ p ∈ pre, alookup (getTable st p.2).catOv (cat, name) = none) →
        alookup (getTable st sid).catOv (cat, name) = some v →
        resolve st cat name none = .ok v)
    ∧ (∀ D,
        (∀ p ∈ st.stack, alookup (getTable st p.2).catOv (cat, name) = none) →
        decl.default = some D → resolve st cat name none = .ok D) := by
  refine ⟨fun v hv => ?_, fun pre c sid post v hstk hpre hsid => ?_,
    fun D hnone hD => ?_⟩
  · simp [resolve, hdecl, hv]
  · have := findOverride_first st cat name pre c sid post v hpre hsid
    simp [resolve, hdecl, hstk, this]
  · have := findOverride_none st cat name st.stack hnone
    simp [resolve, hdecl, this, hD]

/-- Witness for C1 at concrete states: explicit `5` wins over the active
override `3`; with the sentinel, the innermost override `3` wins; with no
active override, the static default `1` is returned. -/
theorem c1_resolution_precedence_witness :
    resolve exSt1 0 0 (some 5) = .ok 5
    ∧ resolve exSt1 0 0 none = .ok 3
    ∧ resolve exSt0 0 0 none = .ok 1 := by
  refine ⟨(c1_resolution_precedence exSt1 0 0 exDecl rfl).1 5 (by decide), ?_, ?_⟩
  · exact (c1_resolution_precedence exSt1 0 0 exDecl rfl).2.1
      [(0, 2)] 1 1 [] 3 rfl (by decide) (by decide)
  · exact (c1_resolution_precedence exSt0 0 0 exDecl rfl).2.2
      1 (by decide) rfl

/-- C2: nested-scope shadowing and fallback on exit.  With outer scope `S1`
entered first and inner scope `S2` entered second, both overriding
`(cat, name)`, resolution while both are active returns `S2`'s value;
after `S2` exits it returns `S1`'s value; after `S1` also exits it returns
the static default `D`; and with no active scopes and no explicit value it
returns `D`. -/
theorem c2_nested_shadowing (st0 : RegistryState) (S1 S2 : ScopeId)
    (cat : Cat) (name : Name) (decl : ParamDecl) (v1 v2 D : Value)
    (st2 st4 : RegistryState)
    (hstack : st0.stack = [])
    (hS : S1 ≠ S2)
    (hdecl : alookup st0.decls (cat, name) = some decl)
    (hD : decl.default = some D)
    (hset1 : setCategoryDefault (enterScope st0 S1).2 S1 cat name v1 = .ok st2)
    (hset2 : setCategoryDefault (enterScope st2 S2).2 S2 cat name v2 = .ok st4) :
    resolve st4 cat name none = .ok v2
    ∧ (∀ st5, exitScope st4 (enterScope st2 S2).1 = .ok st5 →
        resolve st5 cat name none = .ok v1
        ∧ ∀ st6, exitScope st5 (enterScope st0 S1).1 = .ok st6 →
            resolve st6 cat name none = .ok D)
    ∧ resolve st0 cat name none = .ok D := by
  simp only [setCategoryDefault, enterScope, hdecl] at hset1
  split at hset1
  case isFalse => exact absurd hset1 (by simp)
  case isTrue hv1 =>
  simp only [Except.ok.injEq] at hset1
  subst hset1
  simp only [setCategoryDefault, enterScope, hdecl] at hset2
  split at hset2
  case isFalse => exact absurd hset2 (by simp)
  case isTrue hv2 =>
  simp only [Except.ok.injEq] at hset2
  subst hset2
  have hS' : S2 ≠ S1 := fun hh => hS hh.symm
  refine ⟨?_, fun st5 hex5 => ?_, ?_⟩
  · simp [resolve, hdecl, findOverride, getTable, alookup_aupdate_self]
  · simp [exitScope, enterScope, Except.ok.injEq] at hex5
    subst hex5
    refine ⟨?_, fun st6 hex6 => ?_⟩
    · simp [resolve, hdecl, findOverride, getTable,
        alookup_aupdate_self, alookup_aupdate_ne, hS]
    · simp [exitScope, enterScope, Except.ok.injEq] at hex6
      subst hex6
      simp [resolve, hdecl, findOverride, hstack, hD]
  · simp [resolve, hdecl, findOverride, hstack, hD]

/-- The state after entering scope `1` and overriding `(0, 0)` with `3`. -/
def exC2st2 : RegistryState :=
  ⟨exDecls, [(1, ⟨[((0, 0), 3)], []⟩)], [(0, 1)], 1⟩

/-- The state after also entering scope `2` and overriding `(0, 0)` with `7`. -/
def exC2st4 : RegistryState :=
  ⟨exDecls, [(1, ⟨[((0, 0), 3)], []⟩), (2, ⟨[((0, 0), 7)], []⟩)],
   [(1, 2), (0, 1)], 2⟩

/-- The state after scope `2` has exited again. -/
def exC2st5 : RegistryState :=
  ⟨exDecls, [(1, ⟨[((0, 0), 3)], []⟩), (2, ⟨[((0, 0), 7)], []⟩)], [(0, 1)], 2⟩

/-- The state after scope `1` has exited as well. -/
def exC2st6 : RegistryState :=
  ⟨exDecls, [(1, ⟨[((0, 0), 3)], []⟩), (2, ⟨[((0, 0), 7)], []⟩)], [], 2⟩

/-- Witness for C2 at concrete states: with both scopes active the inner
override `7` wins, after the inner scope exits the outer override `3`
wins, after both exit the static default `1` returns, and with no scopes
at all the static default `1` is resolved. -/
theorem c2_nested_shadowing_witness :
    resolve exC2st4 0 0 none = .ok 7
    ∧ resolve exC2st5 0 0 none = .ok 3
    ∧ resolve exC2st6 0 0 none = .ok 1
    ∧ resolve exSt0 0 0 none = .ok 1 := by
  have h := c2_nested_shadowing exSt0 1 2 0 0 exDecl 3 7 1 exC2st2 exC2st4
    rfl (by decide) rfl rfl rfl rfl
  have h5 := h.2.1 exC2st5 rfl
  exact ⟨h.1, h5.1, h5.2 exC2st6 rfl, h.2.2⟩

/-- Every name resolved by `resolveAll` is stored with exactly its
construction-time resolution result. -/
theorem resolveAll_lookup (st : RegistryState) (cat : Cat)
    (explicit : List (Name × Value)) (names : List Name)
    (l : List (Name × Value))
    (h : resolveAll st cat explicit names = .ok l) :
    ∀ n ∈ names, ∃ v, resolve st cat n (alookup explicit n) = .ok v
      ∧ alookup l n = some v := by
  induction names generalizing l with
  | nil => intro n hn; cases hn
  | cons n0 rest ih =>
    simp only [resolveAll] at h
    split at h
    · exact absurd h (by simp)
    · rename_i v heq
      split at h
      · exact absurd h (by simp)
      · rename_i vs heq2
        simp only [Except.ok.injEq] at h
        subst h
        intro n hn
        rcases List.mem_cons.mp hn with hn0 | hn'
        · subst hn0; exact ⟨v, heq, by simp [alookup]⟩
        · by_cases hne : n0 = n
          · subst hne; exact ⟨v, heq, by simp [alookup]⟩
          · obtain ⟨w, hw1, hw2⟩ := ih vs heq2 n hn'
            exact ⟨w, hw1, by simp [alookup, hne, hw2]⟩

/-- C3: construction-time immutability.  An instance constructed while the
effective default for `P` is `D1` keeps its already-resolved attribute at
`D1` (the attribute table of the instance is a fixed value holding the
construction-time resolution, which happened exactly once, in
`constructInstance`), even though mutating the innermost active scope's
category-level default to `D2` makes every later resolution return `D2`. -/
theorem c3_construction_immutability (st st1 : RegistryState) (cat : Cat)
    (P : Name) (explicit : List (Name × Value)) (I : Instance)
    (D1 D2 : Value) (sid : ScopeId) (c : Nat) (rest : List (Nat × ScopeId))
    (hP : P ∈ declaredNames st cat)
    (hPex : alookup explicit P = none)
    (hcon : constructInstance st cat explicit = .ok I)
    (hres : resolve st cat P none = .ok D1)
    (hstk : st.stack = (c, sid) :: rest)
    (hset : setCategoryDefault st sid cat P D2 = .ok st1) :
    alookup I.attrs P = some D1
    ∧ resolve st1 cat P none = .ok D2 := by
  constructor
  · simp only [constructInstance] at hcon
    split at hcon
    · exact absurd hcon (by simp)
    · rename_i attrs heq
      simp only [Except.ok.injEq] at hcon
      subst hcon
      obtain ⟨v, hv1, hv2⟩ := resolveAll_lookup st cat explicit _ attrs heq P hP
      rw [hPex] at hv1
      rw [hv1] at hres
      simp only [Except.ok.injEq] at hres
      subst hres
      exact hv2
  · simp only [setCategoryDefault] at hset
    split at hset
    · exact absurd hset (by simp)
    · rename_i decl heqd
      split at hset
      · simp only [Except.ok.injEq] at hset
        subst hset
        simp [resolve, heqd, hstk, findOverride, getTable, alookup_aupdate_self]
      · exact absurd hset (by simp)

/-- A registry with the one declared parameter, scope `1` active and no
overrides anywhere. -/
def exC3st : RegistryState := ⟨exDecls, [], [(0, 1)], 1⟩

/-- The instance constructed in `exC3st`: its one attribute resolved to the
static default `1`. -/
def exC3inst : Instance := ⟨0, [(0, 1)]⟩

/-- State `exC3st` after the active scope's default for `(0, 0)` was set to `2`. -/
def exC3st1 : RegistryState := ⟨exDecls, [(1, ⟨[((0, 0), 2)], []⟩)], [(0, 1)], 1⟩

/-- Witness for C3 at concrete states: the instance keeps attribute `1`
while fresh resolution after the mutation yields `2`. -/
theorem c3_construction_immutability_witness :
    alookup exC3inst.attrs 0 = some 1
    ∧ resolve exC3st1 0 0 none = .ok 2 :=
  c3_construction_immutability exC3st exC3st1 0 0 [] exC3inst 1 2 1 0 []
    (by decide) rfl rfl rfl rfl rfl

/-- C4: validator enforcement with atomicity.  Setting a category default
to a value that violates the declared validator raises `InvalidValueError`
synchronously — the call returns the error and produces no successor
state, so the scope's override table is exactly as before the call
(all-or-nothing; in this embedding a raising call is one that returns
`.error` and leaves the caller holding the unchanged prior state). -/
theorem c4_validator_enforcement (st : RegistryState) (sid : ScopeId)
    (cat : Cat) (name : Name) (decl : ParamDecl) (bad : Value)
    (hdecl : alookup st.decls (cat, name) = some decl)
    (hbad : decl.validator bad = false) :
    setCategoryDefault st sid cat name bad = .error .invalidValue
    ∧ ∀ st', setCategoryDefault st sid cat name bad ≠ .ok st' := by
  have h : setCategoryDefault st sid cat name bad = .error .invalidValue := by
    simp [setCategoryDefault, hdecl, hbad]
  exact ⟨h, fun st' hok => by simp [h] at hok⟩

/-- Witness for C4 at a concrete state: `-5` fails the positivity
validator, the call errors, and no successor state exists. -/
theorem c4_validator_enforcement_witness :
    setCategoryDefault exSt0 1 0 0 (-5) = .error .invalidValue
    ∧ setCategoryDefault exSt0 1 0 0 (-5) ≠ .ok exSt0 := by
  have h := c4_validator_enforcement exSt0 1 0 0 exDecl (-5) rfl (by decide)
  exact ⟨h.1, h.2 exSt0⟩

/-- A registry in which active scope `1` already overrides `(0, 0)`
with `5`. -/
def exC5st : RegistryState := ⟨exDecls, [(1, ⟨[((0, 0), 5)], []⟩)], [(0, 1)], 1⟩

/-- State `exC5st` after the override for `(0, 0)` was set to `7`. -/
def exC5stSet : RegistryState :=
  ⟨exDecls, [(1, ⟨[((0, 0), 7)], []⟩)], [(0, 1)], 1⟩

/-- Counterexample to C5 as stated: in a scope that already overrode
`(0, 0)` with `5`, setting `7` and then unsetting does not restore the
resolution result `5` — it falls through to the static default `1`,
because `unset_category_default` removes the override outright rather
than restoring the overwritten prior value. -/
theorem c5_set_unset_counterexample :
    setCategoryDefault exC5st 1 0 0 7 = .ok exC5stSet
    ∧ resolve (unsetCategoryDefault exC5stSet 1 0 0) 0 0 none = .ok 1
    ∧ resolve exC5st 0 0 none = .ok 5 :=
  ⟨rfl, rfl, rfl⟩

/-- C5 (amended): for every scope `S`, category `C`, parameter `P` and
valid value `X`, **provided `S` had no category-level override for
`(C, P)` before the call**, `set_category_default` followed by
`unset_category_default` yields the same resolution result (for every
query) as if the set had never happened; resolution falls through to
enclosing scopes or the static default. -/
theorem c5_set_unset_roundtrip (st st1 : RegistryState) (sid : ScopeId)
    (cat : Cat) (name : Name) (X : Value)
    (hnone : alookup (getTable st sid).catOv (cat, name) = none)
    (hset : setCategoryDefault st sid cat name X = .ok st1) :
    ∀ cat' name' explicit,
      resolve (unsetCategoryDefault st1 sid cat name) cat' name' explicit
        = resolve st cat' name' explicit := by
  simp only [setCategoryDefault] at hset
  split at hset
  · exact absurd hset (by simp)
  · split at hset
    · simp only [Except.ok.injEq] at hset
      subst hset
      intro cat' name' explicit
      simp only [getTable] at hnone
      simp only [unsetCategoryDefault]
      apply resolve_tables_congr
      intro s
      by_cases hs : s = sid
      · subst hs
        simp only [getTable, tget_aupdate_self]
        rw [aremove_aupdate, aremove_of_lookup_none _ _ hnone]
      · simp only [getTable, tget_aupdate_ne _ _ _ _ hs]
    · exact absurd hset (by simp)

/-- Witness for the amended C5 at concrete states: scope `1` starts with
no override, sets `7`, unsets, and resolution agrees with the original
state. -/
theorem c5_set_unset_roundtrip_witness :
    resolve (unsetCategoryDefault exC5stSet 1 0 0) 0 0 none
      = resolve exC3st 0 0 none :=
  c5_set_unset_roundtrip exC3st exC5stSet 1 0 0 7 rfl rfl 0 0 none

/-- C6: instance-level override isolation.  Setting an instance override
for `(I, P)` in scope `S` makes the instance query for `I` in `S` return
that value, leaves every query for any other instance unchanged, leaves
every scope's category-level override table unchanged, and leaves
category-level resolution (used for every other instance of the
category) unchanged. -/
theorem c6_instance_override_isolation (st st' : RegistryState)
    (sid : ScopeId) (cat : Cat) (inst : Inst) (name : Name) (v : Value)
    (hset : setInstanceOverride st sid cat inst name v = .ok st') :
    instanceQuery st' sid cat inst name = some v
    ∧ (∀ inst', inst' ≠ inst → ∀ sid' cat' name',
        instanceQuery st' sid' cat' inst' name'
          = instanceQuery st sid' cat' inst' name')
    ∧ (∀ sid', (getTable st' sid').catOv = (getTable st sid').catOv)
    ∧ (∀ cat' name' explicit,
        resolve st' cat' name' explicit = resolve st cat' name' explicit) := by
  simp only [setInstanceOverride] at hset
  split at hset
  · exact absurd hset (by simp)
  · split at hset
    case isFalse => exact absurd hset (by simp)
    case isTrue =>
      simp only [Except.ok.injEq] at hset
      subst hset
      have hcat : ∀ sid',
          ((alookup (aupdate st.tables sid
              { getTable st sid with
                  instOv := aupdate (getTable st sid).instOv (inst, name) v })
            sid').getD ScopeTable.empty).catOv = (getTable st sid').catOv := by
        intro sid'
        by_cases hs : sid' = sid
        · subst hs; rw [tget_aupdate_self]
        · rw [tget_aupdate_ne _ _ _ _ hs]; rfl
      refine ⟨?_, ?_, hcat, ?_⟩
      · simp only [instanceQuery, getTable, tget_aupdate_self]
        simp [alookup_aupdate_self]
      · intro inst' hne sid' cat' name'
        have hkey : (inst', name') ≠ (inst, name) := by
          intro hk
          exact hne (congrArg Prod.fst hk)
        by_cases hs : sid' = sid
        · subst hs
          simp only [instanceQuery, getTable, tget_aupdate_self]
          simp [alookup_aupdate_ne _ _ _ _ hkey]
        · simp only [instanceQuery, getTable, tget_aupdate_ne _ _ _ _ hs]
      · intro cat' name' explicit
        exact resolve_tables_congr st _ hcat cat' name' explicit

/-- State `exC3st` after an instance override `4` was stored for instance `9`,
parameter `0`, in scope `1`. -/
def exC6st : RegistryState := ⟨exDecls, [(1, ⟨[], [((9, 0), 4)]⟩)], [(0, 1)], 1⟩

/-- Witness for C6 at concrete states: the override shows up only for
instance `9`; instance `8`, the category table, and resolution are
untouched. -/
theorem c6_instance_override_isolation_witness :
    instanceQuery exC6st 1 0 9 0 = some 4
    ∧ instanceQuery exC6st 1 0 8 0 = instanceQuery exC3st 1 0 8 0
    ∧ (getTable exC6st 1).catOv = (getTable exC3st 1).catOv
    ∧ resolve exC6st 0 0 none = resolve exC3st 0 0 none := by
  have h := c6_instance_override_isolation exC3st exC6st 1 0 9 0 4 rfl
  exact ⟨h.1, h.2.1 8 (by decide) 1 0 0, h.2.2.1 1, h.2.2.2 0 0 none⟩

/-- Membership in a scope's per-category default listing is membership in
its category-level override table. -/
theorem mem_scopeCatDefaults (t : ScopeTable) (cat : Cat) (n : Name)
    (v : Value) :
    (n, v) ∈ scopeCatDefaults t cat ↔ ((cat, n), v) ∈ t.catOv := by
  obtain ⟨co, io⟩ := t
  induction co with
  | nil => simp [scopeCatDefaults]
  | cons p rest ih =>
    obtain ⟨⟨c1, n1⟩, w⟩ := p
    by_cases hc : c1 = cat
    · subst hc
      simp [scopeCatDefaults, ih, Prod.ext_iff]
    · have hc' : cat ≠ c1 := fun h => hc h.symm
      simp [scopeCatDefaults, hc, ih, Prod.ext_iff, hc']

/-- Membership in the stack walk of `allDefaultsAux`: exactly the overrides
held by some entry of the walked list. -/
theorem mem_allDefaultsAux (st : RegistryState) (cat : Cat) (n : Name)
    (v : Value) (l : List (Nat × ScopeId)) :
    (n, v) ∈ allDefaultsAux st cat l
      ↔ ∃ p ∈ l, ((cat, n), v) ∈ (getTable st p.2).catOv := by
  induction l with
  | nil => simp [allDefaultsAux]
  | cons p rest ih =>
    simp [allDefaultsAux, List.mem_append, mem_scopeCatDefaults, ih]

/-- Changing only the stack and cursor of a state leaves the collected
defaults of any fixed walk unchanged (they read only the tables). -/
theorem allDefaultsAux_set_stack (st : RegistryState)
    (stack' : List (Nat × ScopeId)) (nc : Nat) (cat : Cat)
    (l : List (Nat × ScopeId)) :
    allDefaultsAux { st with stack := stack', nextCursor := nc } cat l
      = allDefaultsAux st cat l := by
  induction l with
  | nil => rfl
  | cons p rest ih =>
    simp only [allDefaultsAux, ih]
    rfl

/-- C7: `all_defaults` reflects only the currently active scope stack.
Entering a scope prepends exactly that scope's overrides for the category
(innermost-first precedence order); exiting it restores the previous
snapshot, so overrides of exited scopes are excluded; and membership in
the snapshot holds exactly for the overrides set for the category in
scopes presently entered. -/
theorem c7_all_defaults_active_stack (st : RegistryState) (sid : ScopeId)
    (cat : Cat) :
    allDefaults (enterScope st sid).2 cat
      = scopeCatDefaults (getTable st sid) cat ++ allDefaults st cat
    ∧ (∀ st', exitScope (enterScope st sid).2 (enterScope st sid).1 = .ok st' →
        allDefaults st' cat = allDefaults st cat)
    ∧ (∀ n v, (n, v) ∈ allDefaults st cat ↔
        ∃ p ∈ st.stack, ((cat, n), v) ∈ (getTable st p.2).catOv) := by
  refine ⟨?_, fun st' hex => ?_, fun n v =>
    mem_allDefaultsAux st cat n v st.stack⟩
  · calc allDefaults (enterScope st sid).2 cat
        = scopeCatDefaults (getTable st sid) cat
            ++ allDefaultsAux { st with
                stack := (st.nextCursor, sid) :: st.stack
                nextCursor := st.nextCursor + 1 } cat st.stack := rfl
      _ = scopeCatDefaults (getTable st sid) cat
            ++ allDefaultsAux st cat st.stack := by
          rw [allDefaultsAux_set_stack st ((st.nextCursor, sid) :: st.stack)
            (st.nextCursor + 1) cat st.stack]
      _ = scopeCatDefaults (getTable st sid) cat ++ allDefaults st cat := rfl
  · simp [exitScope, enterScope] at hex
    subst hex
    exact allDefaultsAux_set_stack st st.stack (st.nextCursor + 1) cat st.stack

/-- State `exC5st` after entering scope `2` and exiting it again. -/
def exC7exited : RegistryState :=
  ⟨exDecls, [(1, ⟨[((0, 0), 5)], []⟩)], [(0, 1)], 2⟩

/-- Witness for C7 at concrete states: entering empty scope `2` above
`exC5st` prepends nothing, exiting restores the snapshot, and membership
in the snapshot matches the overrides of presently entered scopes. -/
theorem c7_all_defaults_active_stack_witness :
    allDefaults (enterScope exC5st 2).2 0
      = scopeCatDefaults (getTable exC5st 2) 0 ++ allDefaults exC5st 0
    ∧ allDefaults exC7exited 0 = allDefaults exC5st 0
    ∧ ((0, 5) ∈ allDefaults exC5st 0 ↔
        ∃ p ∈ exC5st.stack, ((0, 0), (5 : Value)) ∈ (getTable exC5st p.2).catOv) := by
  have h := c7_all_defaults_active_stack exC5st 2 0
  exact ⟨h.1, h.2.1 exC7exited rfl, h.2.2 0 5⟩

/-- C8: scope stack corruption is an error.  An `exit_scope` with an empty
stack, or whose cursor does not refer to the top-of-stack entry, raises
`ScopeStackCorruptionError`; and a matched exit followed by a second exit
for the same cursor (cursors are issued uniquely, so the cursor occurs
nowhere below the top) raises `ScopeStackCorruptionError` on the second
call. -/
theorem c8_scope_stack_corruption (st : RegistryState) (cursor : Nat) :
    (st.stack = [] → exitScope st cursor = .error .scopeStackCorruption)
    ∧ (∀ c s rest, st.stack = (c, s) :: rest → c ≠ cursor →
        exitScope st cursor = .error .scopeStackCorruption)
    ∧ (∀ s rest, st.stack = (cursor, s) :: rest →
        (∀ s', (cursor, s') ∉ rest) →
        ∃ st', exitScope st cursor = .ok st'
          ∧ exitScope st' cursor = .error .scopeStackCorruption) := by
  refine ⟨fun h => by simp [exitScope, h],
    fun c s rest h hne => by simp [exitScope, h, hne],
    fun s rest h hnotin => ?_⟩
  refine ⟨{ st with stack := rest }, by simp [exitScope, h], ?_⟩
  match hr : rest with
  | [] => simp [exitScope]
  | (c', s') :: tail =>
    have hc' : c' ≠ cursor := by
      intro hcc
      apply hnotin s'
      rw [hcc]
      exact List.mem_cons_self _ _
    simp [exitScope, hc']

/-- Witness for C8 at concrete states: exiting with an empty stack errors,
exiting with a cursor that is not on top errors, and a double exit for
the same cursor errors on the second call. -/
theorem c8_scope_stack_corruption_witness :
    exitScope exC2st6 3 = .error .scopeStackCorruption
    ∧ exitScope exC2st4 0 = .error .scopeStackCorruption
    ∧ ∃ st', exitScope exC2st4 1 = .ok st'
        ∧ exitScope st' 1 = .error .scopeStackCorruption := by
  refine ⟨(c8_scope_stack_corruption exC2st6 3).1 rfl,
    (c8_scope_stack_corruption exC2st4 0).2.1 1 2 [(0, 1)] rfl (by decide),
    (c8_scope_stack_corruption exC2st4 1).2.2 2 [(0, 1)] rfl ?_⟩
  intro s' hmem
  simp [exC2st4] at hmem

/-- C9: ad hoc attribute attachment warns but does not block.  Attaching
an attribute outside the declared parameter mechanism emits the advisory
warning (not an error) and the mutation still takes effect on the
object. -/
theorem c9_adhoc_attribute_warns (st : RegistryState) (obj : Instance)
    (name : Name) (v : Value)
    (h : name ∉ declaredNames st obj.cat) :
    (setAttr st obj name v).1 = [.undeclaredAttribute name]
    ∧ alookup (setAttr st obj name v).2.attrs name = some v := by
  constructor
  · simp [setAttr, h]
  · simp [setAttr, alookup_aupdate_self]

/-- Witness for C9 at concrete inputs: attaching undeclared attribute `5`
to the instance emits exactly the warning and the attribute is set. -/
theorem c9_adhoc_attribute_warns_witness :
    (setAttr exC3st exC3inst 5 9).1 = [.undeclaredAttribute 5]
    ∧ alookup (setAttr exC3st exC3inst 5 9).2.attrs 5 = some 9 :=
  c9_adhoc_attribute_warns exC3st exC3inst 5 9 (by decide)

/-- C10: scope contents survive deactivation.  `enter_scope` and
`exit_scope` never change any scope's override tables, only the stack;
an override set on a scope (active or not) is found by resolution during
a later activation of that scope, and during every re-activation after
that, not only the activation in which it was set. -/
theorem c10_scope_contents_survive (st st1 : RegistryState) (sid : ScopeId)
    (cat : Cat) (name : Name) (v : Value) (cursor : Nat)
    (hset : setCategoryDefault st sid cat name v = .ok st1) :
    (enterScope st sid).2.tables = st.tables
    ∧ (∀ st', exitScope st cursor = .ok st' → st'.tables = st.tables)
    ∧ resolve ((enterScope st1 sid).2) cat name none = .ok v
    ∧ (∀ st2, exitScope ((enterScope st1 sid).2) (enterScope st1 sid).1
          = .ok st2 →
        resolve ((enterScope st2 sid).2) cat name none = .ok v) := by
  simp only [setCategoryDefault] at hset
  split at hset
  · exact absurd hset (by simp)
  · rename_i decl heqd
    split at hset
    case isFalse => exact absurd hset (by simp)
    case isTrue =>
      simp only [Except.ok.injEq] at hset
      subst hset
      refine ⟨rfl, fun st' hex => ?_, ?_, fun st2 hex2 => ?_⟩
      · simp only [exitScope] at hex
        split at hex
        · exact absurd hex (by simp)
        · split at hex
          · simp only [Except.ok.injEq] at hex
            subst hex
            rfl
          · exact absurd hex (by simp)
      · simp [resolve, heqd, enterScope, findOverride, getTable,
          alookup_aupdate_self]
      · simp [exitScope, enterScope] at hex2
        subst hex2
        simp [resolve, heqd, enterScope, findOverride, getTable,
          alookup_aupdate_self]

/-- The state reached from `exC3st1` by entering scope `1` and exiting it
again. -/
def exC10st2 : RegistryState :=
  ⟨exDecls, [(1, ⟨[((0, 0), 2)], []⟩)], [(0, 1)], 2⟩

/-- The state reached from `exC3st` by exiting its active scope. -/
def exC10exit : RegistryState := ⟨exDecls, [], [], 1⟩

/-- Witness for C10 at concrete states: enter/exit leave the tables alone,
and the override set on scope `1` is resolved both in its next activation
and in the activation after that. -/
theorem c10_scope_contents_survive_witness :
    (enterScope exC3st 1).2.tables = exC3st.tables
    ∧ exC10exit.tables = exC3st.tables
    ∧ resolve ((enterScope exC3st1 1).2) 0 0 none = .ok 2
    ∧ resolve ((enterScope exC10st2 1).2) 0 0 none = .ok 2 := by
  have h := c10_scope_contents_survive exC3st exC3st1 1 0 0 2 0 rfl
  exact ⟨h.1, h.2.1 exC10exit rfl, h.2.2.1, h.2.2.2 exC10st2 rfl⟩

end ScopedDefaults
